import Mathlib

/-
Verification of the license server in server.py.

The embedding models the SQLite table `licenses (key TEXT PRIMARY KEY,
expiry_date TEXT, hwid TEXT)` as an association list keyed by the license
key, SQLite dynamic column values as `DBVal` (null, integer, or string:
the shapes produced by the program itself and by the legacy JSON mirror),
and each operation of server.py as a pure function over that store.
Machine time `now` is an integer count of UTC epoch seconds, matching
`int(datetime.datetime.now(datetime.timezone.utc).timestamp())`.
-/

/-- A dynamically typed SQLite/JSON value, as stored in the `expiry_date`
column: NULL, an integer, or a string. -/
inductive DBVal where
  | none
  | int (n : Int)
  | str (s : String)
deriving DecidableEq, Repr

/-- One row of the `licenses` table apart from its key. -/
structure RowData where
  expiry_date : DBVal
  hwid : Option String
deriving DecidableEq, Repr

/-- The `licenses` table: rows keyed by the primary key `key`. -/
abbrev Store := List (String × RowData)

/-- SELECT ... WHERE key=?  (primary key, so at most one row). -/
def lookup : Store → String → Option RowData
  | [], _ => Option.none
  | (k, r) :: rest, key => if k = key then some r else lookup rest key

/-- INSERT OR REPLACE INTO licenses VALUES (key, r): replaces the row with
this primary key if present, otherwise inserts a new row. -/
def insertOrReplace : Store → String → RowData → Store
  | [], key, r => [(key, r)]
  | (k, r0) :: rest, key, r =>
    if k = key then (key, r) :: rest else (k, r0) :: insertOrReplace rest key r

/-- UPDATE licenses SET hwid=? WHERE key=?. -/
def setHwid : Store → String → Option String → Store
  | [], _, _ => []
  | (k, r) :: rest, key, h =>
    if k = key then (k, ⟨r.expiry_date, h⟩) :: setHwid rest key h
    else (k, r) :: setHwid rest key h

/-- DELETE FROM licenses WHERE key=?. -/
def deleteKey : Store → String → Store
  | [], _ => []
  | (k, r) :: rest, key =>
    if k = key then deleteKey rest key else (k, r) :: deleteKey rest key

/-- Python truthiness of an optional string (`if saved_hwid and hwid`):
None and the empty string are falsy. -/
def truthy : Option String → Bool
  | Option.none => false
  | some s => decide (s ≠ "")

/- ===== ExpiryCodec: parse_expiry_any (server.py lines 33-73) ===== -/

/-- The set of characters stripped by Python str.strip). -/
def isPySpace (c : Char) : Bool :=
  c = ' ' || c = '\t' || c = '\n' || c = '\r' || c = Char.ofNat 11 || c = Char.ofNat 12

/-- Python str.strip): drop leading and trailing whitespace. -/
def pyStrip (s : String) : String :=
  String.mk (((s.toList.dropWhile isPySpace).reverse.dropWhile isPySpace).reverse)

/-- Digits consumed by Python int) after the first digit: a run of digits
in which single underscores may separate digit groups. Returns the digits
with underscores removed. -/
def pyDigitsRest : List Char → Option (List Char)
  | [] => some []
  | c :: cs =>
    if c.isDigit then
      match pyDigitsRest cs with
      | some ds => some (c :: ds)
      | Option.none => Option.none
    else if c = '_' then
      match cs with
      | c2 :: cs2 =>
        if c2.isDigit then
          match pyDigitsRest cs2 with
          | some ds => some (c2 :: ds)
          | Option.none => Option.none
        else Option.none
      | [] => Option.none
    else Option.none

/-- An unsigned digit run for Python int): at least one digit, single
underscores allowed between digits. -/
def pyUIntDigits : List Char → Option (List Char)
  | [] => Option.none
  | c :: cs =>
    if c.isDigit then
      match pyDigitsRest cs with
      | some ds => some (c :: ds)
      | Option.none => Option.none
    else Option.none

/-- Numeric value of a list of decimal digits. -/
def digitsVal (ds : List Char) : Int :=
  ds.foldl (fun a c => a * 10 + Int.ofNat (c.toNat - 48)) 0

/-- Python `int(s)` on an already stripped string: optional sign followed
by a digit run; `none` models the ValueError branch. -/
def parsePyInt (s : String) : Option Int :=
  match s.toList with
  | '+' :: rest => (pyUIntDigits rest).map digitsVal
  | '-' :: rest => (pyUIntDigits rest).map (fun ds => - digitsVal ds)
  | l => (pyUIntDigits l).map digitsVal

/-- The timestamps accepted by datetime.datetime.fromtimestamp with UTC:
0001-01-01T00:00:00 through 9999-12-31T23:59:59; outside this range the
call raises and parse_expiry_any falls back to a null expiry. -/
def tsInRange (n : Int) : Bool :=
  decide (-62135596800 ≤ n) && decide (n ≤ 253402300799)

/-- Days from 1970-01-01 to the civil date y-m-d (proleptic Gregorian). -/
def daysFromCivil (y m d : Int) : Int :=
  let y2 := y - (if m ≤ 2 then 1 else 0)
  let era := Int.fdiv y2 400
  let yoe := y2 - era * 400
  let doy := Int.fdiv (153 * (m + (if 2 < m then -3 else 9)) + 2) 5 + d - 1
  let doe := yoe * 365 + Int.fdiv yoe 4 - Int.fdiv yoe 100 + doy
  era * 146097 + doe - 719468

/-- Civil date (y, m, d) of the day that is z days after 1970-01-01. -/
def civilFromDays (z : Int) : Int × Int × Int :=
  let z2 := z + 719468
  let era := Int.fdiv z2 146097
  let doe := z2 - era * 146097
  let yoe :=
    Int.fdiv (doe - Int.fdiv doe 1460 + Int.fdiv doe 36524 - Int.fdiv doe 146096) 365
  let y := yoe + era * 400
  let doy := doe - (365 * yoe + Int.fdiv yoe 4 - Int.fdiv yoe 100)
  let mp := Int.fdiv (5 * doy + 2) 153
  let d := doy - Int.fdiv (153 * mp + 2) 5 + 1
  let m := mp + (if mp < 10 then 3 else -9)
  (y + (if m ≤ 2 then 1 else 0), m, d)

/-- Zero-padded decimal rendering of a nonnegative integer. -/
def padNum (w : Nat) (n : Int) : String :=
  let s := toString n.natAbs
  String.mk (List.replicate (w - s.length) '0') ++ s

/-- strftime of a civil date as a zero-padded string in ISO order. -/
def fmtDate (c : Int × Int × Int) : String :=
  padNum 4 c.1 ++ "-" ++ padNum 2 c.2.1 ++ "-" ++ padNum 2 c.2.2

/-- Gregorian leap-year test. -/
def isLeap (y : Int) : Bool :=
  (decide (y % 4 = 0) && decide (¬ y % 100 = 0)) || decide (y % 400 = 0)

/-- Number of days in a month. -/
def daysInMonth (y m : Int) : Int :=
  if m = 2 then (if isLeap y then 29 else 28)
  else if m = 4 ∨ m = 6 ∨ m = 9 ∨ m = 11 then 30
  else 31

/-- The 4-digit year field of strptime. -/
def parseYear (cs : List Char) : Option Int :=
  if cs.length = 4 ∧ cs.all (fun c => c.isDigit) then some (digitsVal cs) else Option.none

/-- The month field of strptime: one digit 1-9 or two digits 01-09 / 10-12. -/
def parseMonth (cs : List Char) : Option Int :=
  match cs with
  | [c] => if c.isDigit ∧ c ≠ '0' then some (digitsVal [c]) else Option.none
  | [c1, c2] =>
    if c1 = '0' ∧ c2.isDigit ∧ c2 ≠ '0' then some (digitsVal [c2])
    else if c1 = '1' ∧ (c2 = '0' ∨ c2 = '1' ∨ c2 = '2') then some (digitsVal [c1, c2])
    else Option.none
  | _ => Option.none

/-- The day field of strptime: one digit 1-9 or two digits 01-09 / 10-29 /
30 / 31; calendar validity is checked separately. -/
def parseDay (cs : List Char) : Option Int :=
  match cs with
  | [c] => if c.isDigit ∧ c ≠ '0' then some (digitsVal [c]) else Option.none
  | [c1, c2] =>
    if c1 = '0' ∧ c2.isDigit ∧ c2 ≠ '0' then some (digitsVal [c2])
    else if (c1 = '1' ∨ c1 = '2') ∧ c2.isDigit then some (digitsVal [c1, c2])
    else if c1 = '3' ∧ (c2 = '0' ∨ c2 = '1') then some (digitsVal [c1, c2])
    else Option.none
  | _ => Option.none

/-- Split a character list at every occurrence of a separator character. -/
def splitOnChar (sep : Char) : List Char → List (List Char)
  | [] => [[]]
  | c :: cs =>
    match splitOnChar sep cs with
    | [] => [[]]
    | g :: gs => if c = sep then [] :: g :: gs else (c :: g) :: gs

/-- strptime(s, fmt) for the two formats of parse_expiry_any, where `sep`
is the literal separator of the format; the datetime constructor then
rejects year 0 and days past the end of the month. -/
def parseDateSep (sep : Char) (s : String) : Option (Int × Int × Int) :=
  match splitOnChar sep s.toList with
  | [ys, ms, ds] =>
    match parseYear ys, parseMonth ms, parseDay ds with
    | some y, some m, some d =>
      if 1 ≤ y ∧ d ≤ daysInMonth y m then some (y, m, d) else Option.none
    | _, _, _ => Option.none
  | _ => Option.none

/-- The date-format loop of parse_expiry_any followed by its fallback
`return None, s`: try YYYY-MM-DD, then YYYY/MM/DD, else give up with a
null expiry and the raw stripped string as display. -/
def tryDates (s : String) : Option Int × String :=
  match parseDateSep '-' s with
  | some ymd => (some (86400 * daysFromCivil ymd.1 ymd.2.1 ymd.2.2), fmtDate ymd)
  | Option.none =>
    match parseDateSep '/' s with
    | some ymd => (some (86400 * daysFromCivil ymd.1 ymd.2.1 ymd.2.2), fmtDate ymd)
    | Option.none => (Option.none, s)

/-- parse_expiry_any (server.py lines 33-73): returns
(expiry_ts or None, display_string). Integers within fromtimestamp range
pass through; integer strings are tried first, then the two date formats;
anything else falls through to a null expiry with the raw display. -/
def parse_expiry_any : DBVal → Option Int × String
  | DBVal.none => (Option.none, "None")
  | DBVal.int n =>
    if tsInRange n then (some n, fmtDate (civilFromDays (Int.fdiv n 86400)))
    else (Option.none, toString n)
  | DBVal.str v =>
    if v = "" then (Option.none, "None")
    else
      let s := pyStrip v
      match parsePyInt s with
      | some ts =>
        if tsInRange ts then (some ts, fmtDate (civilFromDays (Int.fdiv ts 86400)))
        else tryDates s
      | Option.none => tryDates s

/- ===== Mirror reconciliation (server.py lines 90-119) ===== -/

/-- import_json_to_db (server.py lines 90-103): for every entry of the
JSON mirror document, INSERT OR REPLACE its (key, expiry_date, hwid) into
the table, in document order. -/
def import_json_to_db (store : Store) (data : List (String × DBVal × Option String)) : Store :=
  data.foldl (fun st e => insertOrReplace st e.1 ⟨e.2.1, e.2.2⟩) store

/-- export_db_to_json (server.py lines 105-119): serialize every row to
the mirror document verbatim. -/
def export_db_to_json (store : Store) : List (String × DBVal × Option String) :=
  store.map (fun kr => (kr.1, kr.2.expiry_date, kr.2.hwid))

/- ===== VerificationEngine: /verify (server.py lines 138-172) ===== -/

/-- The JSON body returned by /verify: `ok` plus an optional `reason`. -/
structure Resp where
  ok : Bool
  reason : Option String
deriving DecidableEq, Repr

/-- The expiry test of verify: `expiry_any is not None and expiry_any < now_ts`. -/
def isExpired (expiry_any : Option Int) (now : Int) : Bool :=
  match expiry_any with
  | some e => decide (e < now)
  | Option.none => false

/-- The body of /verify once a row was fetched (server.py lines 150-169):
the expiry check, the hwid mismatch check, and the first-use binding
UPDATE, returning the response and the table after the call. -/
def verifyRow (store : Store) (now : Int) (key : String) (hwid : Option String)
    (row : RowData) : Resp × Store :=
  let expiry_any := (parse_expiry_any row.expiry_date).1
  let saved := row.hwid
  if isExpired expiry_any now then (⟨false, some "expired"⟩, store)
  else if truthy saved ∧ truthy hwid ∧ saved ≠ hwid then
    (⟨false, some "hwid_mismatch"⟩, store)
  else if ¬ truthy saved = true ∧ truthy hwid then
    (⟨true, Option.none⟩, setHwid store key hwid)
  else (⟨true, Option.none⟩, store)

/-- /verify (server.py lines 138-172). `dbFail` injects the exception
path of the surrounding try block (store unreachable, timeout, any
failure while processing): the handler catches every exception and
answers `{"ok": false, "reason": "server_error"}`. -/
def verify (dbFail : Bool) (store : Store) (now : Int) (key : String)
    (hwid : Option String) : Resp × Store :=
  if dbFail then (⟨false, some "server_error"⟩, store)
  else
    match lookup store key with
    | Option.none => (⟨false, some "not_found"⟩, store)
    | some row => verifyRow store now key hwid row

/- ===== AdminMutator: slash commands (server.py lines 265-326) ===== -/

/-- /addkey (server.py lines 265-284). `caller` is the identity of the
invoking Discord user; the body never consults it — there is no
authorization check. Stores `str(expiry_ts)` in the expiry column; the
Discord reply rendering and the best-effort mirror export are elided. -/
def addkeyCmd (caller : Nat) (store : Store) (key : String) (expiry_days : Int)
    (hwid : Option String) (now : Int) : Store :=
  let expiry_ts := now + expiry_days * 86400
  insertOrReplace store key ⟨DBVal.str (toString expiry_ts), hwid⟩

/-- /delkey (server.py lines 286-308): SELECT then DELETE if present;
`caller` is never consulted. -/
def delkeyCmd (caller : Nat) (store : Store) (key : String) : Store :=
  match lookup store key with
  | some _ => deleteKey store key
  | Option.none => store

/-- /resethwid (server.py lines 310-326): unconditional
UPDATE licenses SET hwid=NULL WHERE key=?; `caller` is never consulted. -/
def resethwidCmd (caller : Nat) (store : Store) (key : String) : Store :=
  setHwid store key Option.none

/-- Follows the wording of the spec: the canonical stored expiry form is
an integer number of epoch seconds. -/
def isCanonicalEpochInt : DBVal → Bool
  | DBVal.int _ => true
  | _ => false

/- ===== Two concurrent /verify calls on one never-bound key ===== -/

/-- Progress of one /verify caller on the scenario record (existing key,
non-expiring, so control reaches the hwid logic): `ready` before its
SELECT, `gotRead saved` between its SELECT and its decision, `finished`
after it responded. -/
inductive PState where
  | ready
  | gotRead (saved : Option String)
  | finished (resp : Resp)
deriving DecidableEq, Repr

/-- One atomic database access of a /verify caller supplying `h`, acting
on the shared hwid cell `db`. The SELECT and the UPDATE of verify are
separate statements on separate connections, so they are separate atomic
actions; the decision between them uses only the value read earlier. The
branches are those of verifyRow after the expiry check. -/
def pstep (h : Option String) (db : Option String) : PState → PState × Option String
  | PState.ready => (PState.gotRead db, db)
  | PState.gotRead saved =>
    if truthy saved ∧ truthy h ∧ saved ≠ h then
      (PState.finished ⟨false, some "hwid_mismatch"⟩, db)
    else if ¬ truthy saved = true ∧ truthy h then
      (PState.finished ⟨true, Option.none⟩, h)
    else (PState.finished ⟨true, Option.none⟩, db)
  | PState.finished r => (PState.finished r, db)

/-- Shared hwid cell plus the two callers. -/
structure RaceState where
  db : Option String
  p1 : PState
  p2 : PState
deriving DecidableEq, Repr

/-- Let caller 1 (when the scheduled bit is true) or caller 2 act for one
atomic step. -/
def raceStep (h1 h2 : Option String) (st : RaceState) : Bool → RaceState
  | true => ⟨(pstep h1 st.db st.p1).2, (pstep h1 st.db st.p1).1, st.p2⟩
  | false => ⟨(pstep h2 st.db st.p2).2, st.p1, (pstep h2 st.db st.p2).1⟩

/-- Run a schedule of interleaved atomic steps from the never-bound
initial state. -/
def raceRun (h1 h2 : Option String) (sched : List Bool) : RaceState :=
  sched.foldl (raceStep h1 h2) ⟨Option.none, PState.ready, PState.ready⟩

/-- Per-caller invariant: a caller that has read a truthy value, or has
finished, certifies that the shared cell is bound (non-null). -/
def PInv (db : Option String) (p : PState) : Prop :=
  (∀ s, p = PState.gotRead s → truthy s = true → db ≠ Option.none)
  ∧ (∀ r, p = PState.finished r → db ≠ Option.none)

/-- Invariant of the race: the cell only ever holds null or one of the two
supplied hwids, and both callers satisfy the per-caller invariant. -/
def RaceInv (h1 h2 : String) (st : RaceState) : Prop :=
  (st.db = Option.none ∨ st.db = some h1 ∨ st.db = some h2)
  ∧ PInv st.db st.p1 ∧ PInv st.db st.p2

/-- Last mirror entry for a key, the one whose INSERT OR REPLACE wins. -/
def mirrorLast : List (String × DBVal × Option String) → String → Option RowData
  | [], _ => Option.none
  | (k, e, h) :: rest, key =>
    match mirrorLast rest key with
    | some r => some r
    | Option.none => if k = key then some ⟨e, h⟩ else Option.none

/- ===== Helper lemmas ===== -/

theorem truthy_some_iff (s : String) : truthy (some s) = true ↔ s ≠ "" := by
  simp [truthy]

theorem lookup_insertOrReplace (store : Store) (ikey : String) (r : RowData)
    (k : String) :
    lookup (insertOrReplace store ikey r) k =
      if k = ikey then some r else lookup store k := by
  induction store with
  | nil =>
    by_cases h : k = ikey
    · subst h; simp [insertOrReplace, lookup]
    · simp [insertOrReplace, lookup, h, Ne.symm h]
  | cons kr rest ih =>
    obtain ⟨k0, r0⟩ := kr
    by_cases h0 : k0 = ikey
    · subst h0
      by_cases h : k = k0
      · subst h; simp [insertOrReplace, lookup]
      · simp [insertOrReplace, lookup, h, Ne.symm h]
    · by_cases h : k0 = k
      · subst h
        have hkk : ¬ k0 = ikey := h0
        simp [insertOrReplace, lookup, h0, hkk]
      · simp [insertOrReplace, lookup, h0, h, ih]

theorem mem_insertOrReplace (store : Store) (ikey : String) (r : RowData) :
    (ikey, r) ∈ insertOrReplace store ikey r := by
  induction store with
  | nil => simp [insertOrReplace]
  | cons kr rest ih =>
    obtain ⟨k0, r0⟩ := kr
    by_cases h0 : k0 = ikey <;> simp [insertOrReplace, h0, ih]

theorem lookup_setHwid (store : Store) (ukey : String) (h : Option String)
    (k : String) :
    lookup (setHwid store ukey h) k =
      if k = ukey then (lookup store k).map (fun r => ⟨r.expiry_date, h⟩)
      else lookup store k := by
  induction store with
  | nil => simp [setHwid, lookup]
  | cons kr rest ih =>
    obtain ⟨k0, r0⟩ := kr
    by_cases h0 : k0 = ukey
    · subst h0
      by_cases hk : k0 = k
      · subst hk; simp [setHwid, lookup]
      · simp [setHwid, lookup, hk, Ne.symm hk, ih]
    · by_cases hk : k0 = k
      · subst hk
        simp [setHwid, lookup, h0, ih]
      · simp [setHwid, lookup, h0, hk, ih]

theorem pstep_db (h db : Option String) (p : PState) :
    (pstep h db p).2 = db ∨ (pstep h db p).2 = h := by
  cases p with
  | ready => exact Or.inl rfl
  | gotRead saved =>
    simp only [pstep]
    split_ifs <;> simp
  | finished r => exact Or.inl rfl

theorem pinv_other (hs : String) (db : Option String) (p q : PState)
    (hq : PInv db q) : PInv (pstep (some hs) db p).2 q := by
  rcases pstep_db (some hs) db p with h | h <;> rw [h]
  · exact hq
  · exact ⟨fun s _ _ => by simp, fun r _ => by simp⟩

theorem pinv_self (hs : String) (hne : hs ≠ "") (db : Option String) (p : PState)
    (hp : PInv db p) : PInv (pstep (some hs) db p).2 (pstep (some hs) db p).1 := by
  obtain ⟨hg, hf⟩ := hp
  cases p with
  | ready =>
    refine ⟨?_, ?_⟩
    · intro s hs2 ht
      simp only [pstep] at hs2 ⊢
      cases hs2
      intro hdb
      subst hdb
      simp [truthy] at ht
    · intro r hr
      simp only [pstep] at hr
      exact absurd hr (by simp)
  | gotRead saved =>
    simp only [pstep]
    by_cases c1 : truthy saved ∧ truthy (some hs) ∧ saved ≠ some hs
    · rw [if_pos c1]
      refine ⟨?_, ?_⟩
      · intro s hs2
        exact absurd hs2 (by simp)
      · intro r _
        exact hg saved rfl c1.1
    · rw [if_neg c1]
      by_cases c2 : ¬ truthy saved = true ∧ truthy (some hs)
      · rw [if_pos c2]
        refine ⟨?_, ?_⟩
        · intro s hs2
          exact absurd hs2 (by simp)
        · intro r _
          simp
      · rw [if_neg c2]
        refine ⟨?_, ?_⟩
        · intro s hs2
          exact absurd hs2 (by simp)
        · intro r _
          have hts : truthy (some hs) = true := by simp [truthy, hne]
          have htt : truthy saved = true := by
            by_contra hns
            exact c2 ⟨hns, hts⟩
          exact hg saved rfl htt
  | finished r0 =>
    refine ⟨?_, ?_⟩
    · intro s hs2
      exact absurd hs2 (by simp [pstep])
    · intro r hr
      exact hf r0 rfl

theorem race_inv_step (h1 h2 : String) (hne1 : h1 ≠ "") (hne2 : h2 ≠ "")
    (st : RaceState) (b : Bool) (hinv : RaceInv h1 h2 st) :
    RaceInv h1 h2 (raceStep (some h1) (some h2) st b) := by
  obtain ⟨db, p1, p2⟩ := st
  obtain ⟨hrange, hp1, hp2⟩ := hinv
  cases b with
  | false =>
    refine ⟨?_, ?_, ?_⟩
    · rcases pstep_db (some h2) db p2 with h | h <;>
        simp only [raceStep, h]
      · exact hrange
      · exact Or.inr (Or.inr trivial)
    · exact pinv_other h2 db p2 p1 hp1
    · exact pinv_self h2 hne2 db p2 hp2
  | true =>
    refine ⟨?_, ?_, ?_⟩
    · rcases pstep_db (some h1) db p1 with h | h <;>
        simp only [raceStep, h]
      · exact hrange
      · exact Or.inr (Or.inl trivial)
    · exact pinv_self h1 hne1 db p1 hp1
    · exact pinv_other h1 db p1 p2 hp2

theorem race_inv_run (h1 h2 : String) (hne1 : h1 ≠ "") (hne2 : h2 ≠ "")
    (sched : List Bool) : RaceInv h1 h2 (raceRun (some h1) (some h2) sched) := by
  have init : RaceInv h1 h2 ⟨Option.none, PState.ready, PState.ready⟩ := by
    refine ⟨Or.inl rfl, ⟨?_, ?_⟩, ⟨?_, ?_⟩⟩ <;> intro x hx <;> exact absurd hx (by simp)
  have step : ∀ (l : List Bool) (st : RaceState), RaceInv h1 h2 st →
      RaceInv h1 h2 (l.foldl (raceStep (some h1) (some h2)) st) := by
    intro l
    induction l with
    | nil => intro st h; exact h
    | cons b rest ih =>
      intro st h
      exact ih _ (race_inv_step h1 h2 hne1 hne2 st b h)
  exact step sched _ init

/- ===== Claim theorems ===== -/

/-- C1 (counterexample): the three admin mutation commands of server.py
succeed and mutate the license store for a caller identity (0) that
belongs to no admin set — the code consults no admin set at all, so the
claim that a non-admin caller fails with Unauthorized and leaves the
store unchanged is false. -/
theorem admin_mutations_unguarded :
    addkeyCmd 0 [] "K" 1 Option.none 0 = [("K", ⟨DBVal.str "86400", Option.none⟩)]
    ∧ delkeyCmd 0 [("K", ⟨DBVal.none, Option.none⟩)] "K" = []
    ∧ resethwidCmd 0 [("K", ⟨DBVal.none, some "H"⟩)] "K"
      = [("K", ⟨DBVal.none, Option.none⟩)]
    ∧ ([("K", ⟨DBVal.str "86400", Option.none⟩)] : Store) ≠ [] := by
  refine ⟨by decide, by decide, by decide, by decide⟩

/-- C1 (amended): the admin mutation commands perform no authorization
check. The caller identity is ignored — every caller gets the same store
mutation — and addkey unconditionally upserts its record, never failing
with Unauthorized. -/
theorem admin_mutations_ignore_caller (c c2 : Nat) (store : Store) (key : String)
    (days : Int) (hwid : Option String) (now : Int) :
    addkeyCmd c store key days hwid now = addkeyCmd c2 store key days hwid now
    ∧ delkeyCmd c store key = delkeyCmd c2 store key
    ∧ resethwidCmd c store key = resethwidCmd c2 store key
    ∧ lookup (addkeyCmd c store key days hwid now) key
      = some ⟨DBVal.str (toString (now + days * 86400)), hwid⟩ :=
  ⟨rfl, rfl, rfl, by simp [addkeyCmd, lookup_insertOrReplace]⟩

/-- C2 (counterexample): a key present in both the store and the mirror is
overwritten by the mirror value when import_json_to_db runs — the store
record for K is NOT left unchanged. -/
theorem import_mirror_overwrites_existing :
    (import_json_to_db [("K", ⟨DBVal.int 1, some "A"⟩)]
        [("K", DBVal.int 2, some "B")])
      = [("K", ⟨DBVal.int 2, some "B"⟩)]
    ∧ (⟨DBVal.int 2, some "B"⟩ : RowData) ≠ ⟨DBVal.int 1, some "A"⟩ := by
  refine ⟨by decide, by decide⟩

/-- C2 (amended): import_json_to_db upserts every mirror entry with
INSERT OR REPLACE, so the mirror wins on conflict: after the import, a
key maps to its last mirror entry when the mirror mentions it, and to its
old store value only when the mirror does not. -/
theorem import_json_upserts (store : Store)
    (mirror : List (String × DBVal × Option String)) (key : String) :
    lookup (import_json_to_db store mirror) key =
      match mirrorLast mirror key with
      | some r => some r
      | Option.none => lookup store key := by
  induction mirror generalizing store with
  | nil => rfl
  | cons e rest ih =>
    obtain ⟨k, v, h⟩ := e
    show lookup (import_json_to_db (insertOrReplace store k ⟨v, h⟩) rest) key = _
    rw [ih]
    cases hml : mirrorLast rest key with
    | some r => simp [mirrorLast, hml]
    | none =>
      simp only [mirrorLast, hml, lookup_insertOrReplace]
      by_cases hk : k = key
      · subst hk; simp
      · simp [hk, Ne.symm hk]

/-- C5 (counterexample): addkey writes the expiry as str(expiry_ts) — a
string-encoded number, not a canonical integer: adding key K for one day
at time 0 stores the string "86400", which is not an integer DBVal yet
parses as the number 86400. -/
theorem addkey_writes_string_expiry :
    lookup (addkeyCmd 0 [] "K" 1 Option.none 0) "K"
      = some ⟨DBVal.str "86400", Option.none⟩
    ∧ isCanonicalEpochInt (DBVal.str "86400") = false
    ∧ parsePyInt "86400" = some 86400 := by
  refine ⟨by decide, by decide, by decide⟩

/-- C5 (amended): every expiry written by addkey is the decimal string of
the computed epoch seconds (a numeric string, never a date string, but
also never an integer), and export_db_to_json copies the stored value
verbatim into the mirror. -/
theorem addkey_expiry_decimal_string (c : Nat) (store : Store) (key : String)
    (days : Int) (hwid : Option String) (now : Int) :
    lookup (addkeyCmd c store key days hwid now) key
      = some ⟨DBVal.str (toString (now + days * 86400)), hwid⟩
    ∧ (key, DBVal.str (toString (now + days * 86400)), hwid)
      ∈ export_db_to_json (addkeyCmd c store key days hwid now) := by
  constructor
  · simp [addkeyCmd, lookup_insertOrReplace]
  · have hmem := mem_insertOrReplace store key
      (⟨DBVal.str (toString (now + days * 86400)), hwid⟩ : RowData)
    simp only [addkeyCmd, export_db_to_json]
    exact List.mem_map.mpr
      ⟨(key, ⟨DBVal.str (toString (now + days * 86400)), hwid⟩), hmem, rfl⟩

/-- C6 (counterexample): on an internal failure verify answers with reason
"server_error", which is a different status from the "not_found" reason
returned for an absent key — not the same closed-by-default status. -/
theorem verify_failure_reason_differs :
    (verify true [] 0 "K" Option.none).1 = ⟨false, some "server_error"⟩
    ∧ (verify false [] 0 "K" Option.none).1 = ⟨false, some "not_found"⟩
    ∧ (some "server_error" : Option String) ≠ some "not_found" := by
  refine ⟨by decide, by decide, by decide⟩

/-- C6 (amended): verify never raises — every internal failure is caught
and mapped to the fail-closed response ok=false with reason
"server_error" (never ok=true), leaving the store unchanged; but this
status is distinct from the "not_found" status of an absent key. -/
theorem verify_fail_closed_server_error (store : Store) (now : Int) (key : String)
    (hwid : Option String) :
    verify true store now key hwid = (⟨false, some "server_error"⟩, store)
    ∧ (verify true store now key hwid).1.ok = false :=
  ⟨rfl, rfl⟩

/-- C4 (counterexample): a call made exactly at the expiry instant does
NOT return expired — the code tests `expiry_any < now_ts` strictly, so
with stored expiry 100 and now equal to 100 the verify call succeeds. -/
theorem verify_at_expiry_instant_ok :
    verify false [("K", ⟨DBVal.int 100, Option.none⟩)] 100 "K" Option.none
      = (⟨true, Option.none⟩, [("K", ⟨DBVal.int 100, Option.none⟩)])
    ∧ (parse_expiry_any (DBVal.int 100)).1 = some 100 := by
  refine ⟨by decide, by decide⟩

/-- C4 (amended): for a record whose stored expiry parses to epoch
seconds e, verify returns expired exactly when now_utc is strictly past
e (now > e), regardless of the supplied or stored hwid; a call at
now_utc = e is not reported expired. -/
theorem verify_expired_iff_strictly_past (store : Store) (now : Int) (key : String)
    (hwid : Option String) (row : RowData) (e : Int)
    (hrow : lookup store key = some row)
    (hexp : (parse_expiry_any row.expiry_date).1 = some e) :
    (e < now → verify false store now key hwid = (⟨false, some "expired"⟩, store))
    ∧ (¬ e < now → (verify false store now key hwid).1.reason ≠ some "expired") := by
  constructor
  · intro hlt
    simp [verify, hrow, verifyRow, isExpired, hexp, hlt]
  · intro hge
    simp only [verify, Bool.false_eq_true, if_false, hrow, verifyRow, isExpired, hexp]
    rw [if_neg (by simpa using hge)]
    split_ifs <;> simp

/-- C4 witness. -/
theorem verify_expired_iff_strictly_past_witness :
    verify false [("K", ⟨DBVal.int 100, Option.none⟩)] 101 "K" Option.none
      = (⟨false, some "expired"⟩, [("K", ⟨DBVal.int 100, Option.none⟩)]) :=
  (verify_expired_iff_strictly_past [("K", ⟨DBVal.int 100, Option.none⟩)] 101 "K"
      Option.none ⟨DBVal.int 100, Option.none⟩ 100 (by decide) (by decide)).1
    (by decide)

/-- C7 (counterexample): a record whose stored hwid is the empty string —
a non-null value — is NOT protected: verify with a different hwid "X"
takes the binding path, overwrites the stored hwid and returns valid
instead of hwid_mismatch, changing the record. -/
theorem verify_empty_bound_overwritten :
    verify false [("K", ⟨DBVal.none, some ""⟩)] 0 "K" (some "X")
      = (⟨true, Option.none⟩, [("K", ⟨DBVal.none, some "X"⟩)])
    ∧ ("X" : String) ≠ "" := by
  refine ⟨by decide, by decide⟩

/-- C7 (amended): for an unexpired record whose stored hwid is a
non-empty H1, a call supplying a non-empty H2 different from H1 returns
hwid_mismatch and leaves the store (hence the record) unchanged; the
protection holds only for non-empty values, the empty string being
treated as unbound on both sides. -/
theorem verify_mismatch_stable_nonempty (store : Store) (now : Int) (key : String)
    (row : RowData) (h1 h2 : String)
    (hrow : lookup store key = some row) (hsaved : row.hwid = some h1)
    (hne1 : h1 ≠ "") (hne2 : h2 ≠ "") (hne : h2 ≠ h1)
    (hnexp : isExpired (parse_expiry_any row.expiry_date).1 now = false) :
    verify false store now key (some h2) = (⟨false, some "hwid_mismatch"⟩, store) := by
  have hne' : h1 ≠ h2 := Ne.symm hne
  simp [verify, hrow, verifyRow, hsaved, hnexp, truthy, hne1, hne2, hne']

/-- C7 witness. -/
theorem verify_mismatch_stable_nonempty_witness :
    verify false [("K", ⟨DBVal.none, some "A"⟩)] 0 "K" (some "B")
      = (⟨false, some "hwid_mismatch"⟩, [("K", ⟨DBVal.none, some "A"⟩)]) :=
  verify_mismatch_stable_nonempty [("K", ⟨DBVal.none, some "A"⟩)] 0 "K"
    ⟨DBVal.none, some "A"⟩ "A" "B" (by decide) rfl (by decide) (by decide)
    (by decide) (by decide)

/-- C8 (counterexample): for a raw value that is neither empty, numeric,
nor a date, parse_expiry_any does not fail with any error — it returns a
value: a null expiry with the raw string as display. -/
theorem parse_unrecognized_returns_value :
    parse_expiry_any (DBVal.str "definitely not a date")
      = (Option.none, "definitely not a date") := by
  decide

/-- C8 (amended): for every non-empty string whose stripped form is
neither a Python integer literal nor a date in either accepted format,
parse_expiry_any returns (null expiry, stripped string) — silently
treating the value as non-expiring instead of failing with an
InvalidExpiryFormat error. -/
theorem parse_fallback_nonexpiring (s : String) (hne : s ≠ "")
    (hint : parsePyInt (pyStrip s) = Option.none)
    (hd1 : parseDateSep '-' (pyStrip s) = Option.none)
    (hd2 : parseDateSep '/' (pyStrip s) = Option.none) :
    parse_expiry_any (DBVal.str s) = (Option.none, pyStrip s) := by
  simp [parse_expiry_any, hne, hint, tryDates, hd1, hd2]

/-- C8 witness. -/
theorem parse_fallback_nonexpiring_witness :
    parse_expiry_any (DBVal.str "garbage") = (Option.none, "garbage") := by
  have h := parse_fallback_nonexpiring "garbage" (by decide) (by decide)
    (by decide) (by decide)
  simpa using h

/-- C9 (counterexample): the second half of the claim fails for an
expired record: with stored hwid "" and expiry 0, a call at time 100
supplying "HW" returns expired and binds nothing — it does not take the
first-use binding path and does not return valid. -/
theorem verify_expired_empty_hwid_no_bind :
    verify false [("K", ⟨DBVal.int 0, some ""⟩)] 100 "K" (some "HW")
      = (⟨false, some "expired"⟩, [("K", ⟨DBVal.int 0, some ""⟩)]) := by
  decide

/-- C9 (amended): verify treats the empty string as null for the hwid on
both sides, for unexpired records: a call supplying "" never returns
hwid_mismatch and never writes; and for an unexpired record whose stored
hwid is "", any non-empty supplied hwid takes the binding path,
overwrites the stored hwid and returns valid. -/
theorem verify_empty_hwid_as_null :
    (∀ (store : Store) (now : Int) (key : String),
      (verify false store now key (some "")).1.reason ≠ some "hwid_mismatch"
      ∧ (verify false store now key (some "")).2 = store)
    ∧ (∀ (store : Store) (now : Int) (key : String) (row : RowData) (hw : String),
      lookup store key = some row → row.hwid = some "" →
      isExpired (parse_expiry_any row.expiry_date).1 now = false → hw ≠ "" →
      verify false store now key (some hw)
        = (⟨true, Option.none⟩, setHwid store key (some hw))
      ∧ lookup (setHwid store key (some hw)) key
        = some ⟨row.expiry_date, some hw⟩) := by
  constructor
  · intro store now key
    cases hL : lookup store key with
    | none => simp [verify, hL]
    | some row =>
      simp only [verify, Bool.false_eq_true, if_false, hL, verifyRow]
      constructor
      · split_ifs <;> simp_all [truthy]
      · split_ifs <;> simp_all [truthy]
  · intro store now key row hw hL hsaved hnexp hne
    have hres : verify false store now key (some hw)
        = (⟨true, Option.none⟩, setHwid store key (some hw)) := by
      simp [verify, hL, verifyRow, hsaved, hnexp, truthy, hne]
    refine ⟨hres, ?_⟩
    rw [lookup_setHwid, if_pos rfl, hL]
    rfl

/-- C9 witness. -/
theorem verify_empty_hwid_as_null_witness :
    ((verify false ([] : Store) 0 "K" (some "")).2 = [])
    ∧ verify false [("K", ⟨DBVal.none, some ""⟩)] 0 "K" (some "H")
      = (⟨true, Option.none⟩, setHwid [("K", ⟨DBVal.none, some ""⟩)] "K" (some "H")) :=
  ⟨(verify_empty_hwid_as_null.1 [] 0 "K").2,
   (verify_empty_hwid_as_null.2 [("K", ⟨DBVal.none, some ""⟩)] 0 "K"
      ⟨DBVal.none, some ""⟩ "H" (by decide) rfl (by decide) (by decide)).1⟩

/-- C10: parse_expiry_any is total over the modelled value domain by
construction, and for an integer expiry outside the range accepted by
fromtimestamp it returns a null expiry with str(val) as display, so a
verify call on such a record never reports expired. -/
theorem parse_out_of_range_nonexpiring (n : Int) (hout : tsInRange n = false) :
    parse_expiry_any (DBVal.int n) = (Option.none, toString n)
    ∧ ∀ (store : Store) (now : Int) (key : String) (hwid : Option String)
        (r : RowData), lookup store key = some r → r.expiry_date = DBVal.int n →
        (verify false store now key hwid).1.reason ≠ some "expired" := by
  have hp : parse_expiry_any (DBVal.int n) = (Option.none, toString n) := by
    simp [parse_expiry_any, hout]
  refine ⟨hp, ?_⟩
  intro store now key hwid r hr hre
  simp only [verify, Bool.false_eq_true, if_false, hr, verifyRow, hre, hp, isExpired]
  split_ifs <;> simp

/-- C10 witness. -/
theorem parse_out_of_range_nonexpiring_witness :
    tsInRange 253402300800 = false
    ∧ parse_expiry_any (DBVal.int 253402300800) = (Option.none, "253402300800")
    ∧ (verify false [("K", ⟨DBVal.int 253402300800, Option.none⟩)] 999999999999
        "K" Option.none).1.reason ≠ some "expired" :=
  ⟨by decide,
   (parse_out_of_range_nonexpiring 253402300800 (by decide)).1,
   (parse_out_of_range_nonexpiring 253402300800 (by decide)).2
     [("K", ⟨DBVal.int 253402300800, Option.none⟩)] 999999999999 "K" Option.none
     ⟨DBVal.int 253402300800, Option.none⟩ (by decide) rfl⟩

/-- C3 (counterexample): under the schedule read1, read2, write1, write2
both callers read a null hwid, both take the binding path, and both
observe valid — yet only "B" (the later write) is stored: the caller
supplying "A" is never told it lost, contradicting the claim that the
loser observes hwid_mismatch. The verify code issues the SELECT and the
UPDATE as separate unconditional statements, so this interleaving is
possible. -/
theorem race_both_observe_valid :
    raceRun (some "A") (some "B") [true, false, true, false]
      = ⟨some "B", PState.finished ⟨true, Option.none⟩,
          PState.finished ⟨true, Option.none⟩⟩
    ∧ (some "B" : Option String) ≠ some "A" := by
  refine ⟨by decide, by decide⟩

/-- C3 (amended): for a never-bound key and two concurrent verify calls
with non-empty H1 and H2, every interleaving in which both calls complete
leaves the stored hwid equal to H1 or to H2 — never null and never any
other value — but the loser is not guaranteed to observe hwid_mismatch
(it may observe valid, as the counterexample schedule shows). -/
theorem race_final_hwid_nonnull (sched : List Bool) (h1 h2 : String)
    (hne1 : h1 ≠ "") (hne2 : h2 ≠ "") (hne12 : h1 ≠ h2) (r1 r2 : Resp)
    (hfin1 : (raceRun (some h1) (some h2) sched).p1 = PState.finished r1)
    (hfin2 : (raceRun (some h1) (some h2) sched).p2 = PState.finished r2) :
    (raceRun (some h1) (some h2) sched).db = some h1
    ∨ (raceRun (some h1) (some h2) sched).db = some h2 := by
  obtain ⟨hrange, hp1, hp2⟩ := race_inv_run h1 h2 hne1 hne2 sched
  rcases hrange with h | h | h
  · exact absurd h (hp1.2 r1 hfin1)
  · exact Or.inl h
  · exact Or.inr h

/-- C3 witness: a schedule in which caller 1 binds "A" and caller 2 then
reads "A" and finishes with hwid_mismatch; both callers complete, and the
theorem yields that the final hwid is "A" or "B". -/
theorem race_final_hwid_nonnull_witness :
    (raceRun (some "A") (some "B") [true, true, false, false]).db = some "A"
    ∨ (raceRun (some "A") (some "B") [true, true, false, false]).db = some "B" :=
  race_final_hwid_nonnull [true, true, false, false] "A" "B" (by decide)
    (by decide) (by decide) ⟨true, Option.none⟩ ⟨false, some "hwid_mismatch"⟩
    (by decide) (by decide)
